import Mathlib

/-!
A shallow embedding of the `httpx` request binder (`bind.go`) and theorems
checking the natural-language specification against it.

The reflective Go code walks an arbitrary target value; the embedding
represents such targets by the inductive universe `RVal` below.  Each
constructor carries the reflective information the binder inspects
(`reflect.Kind`, struct field metadata, tags, settability, whether the
type implements the `BindUnmarshaler` / `encoding.TextUnmarshaler`
interfaces).  Go's in-place mutation is turned into explicit value
passing: every operation returns the possibly-updated value together
with an optional error.  Go runtime panics that the reflective code can
trigger (out-of-range indexing, kind mismatches) are made explicit as
distinguished error values, so that the embedding is total.
-/

namespace Httpx

/-- Kinds of parse failure of the modelled `strconv` functions
(`strconv.NumError.Err`): syntax errors, range errors, and invalid
bit-size errors. -/
inductive NumErrKind where
  | errSyn
  | errRange
  | errBit
  deriving DecidableEq, Repr

/-- Errors produced by the modelled binder.  `msg` models `errors.New`
values, `numError` models `strconv.NumError`, `http` models
`*httpx.HTTPError` (code plus message), and the two `panic*`
constructors make Go runtime panics explicit: `panicOOB` for an
out-of-range index (`v[0]` on an empty slice) and `panicKind` for a
`reflect` kind-mismatch panic. -/
inductive BErr where
  | msg (s : String)
  | numError (fn : String) (num : String) (kind : NumErrKind)
  | http (code : Nat) (message : String)
  | panicOOB
  | panicKind
  deriving DecidableEq, Repr

/-- The error text, as `err.Error()` would render it in Go. -/
def BErr.text : BErr → String
  | .msg s => s
  | .numError fn num k =>
      "strconv." ++ fn ++ ": parsing \"" ++ num ++ "\": " ++
        (match k with
          | .errSyn => "invalid syntax"
          | .errRange => "value out of range"
          | .errBit => "invalid bit size")
  | .http _ message => message
  | .panicOOB => "runtime error: index out of range"
  | .panicKind => "reflect: call of reflect.Value method on wrong kind"

/-- `reflect.Kind` restricted to the kinds the binder distinguishes.
Go's separate `Int8`/`Int16`/... kinds are folded into `kInt bits`
(`bits = 0` is the default-width `int`), matching how
`setWithProperType` dispatches on them. -/
inductive FKind where
  | kInt (bits : Nat)
  | kUint (bits : Nat)
  | kBool
  | kFloat (bits : Nat)
  | kString
  | kPtr
  | kStruct
  | kSlice
  | kMap
  deriving DecidableEq, Repr

mutual
/-- A reflective Go value as the binder sees it.  `vPtr z p` is a typed
pointer whose pointee type has zero value `z` (`p = none` is `nil`).
`vStruct bindUnm textUnm decoded fields` is a struct value; `bindUnm`
and `textUnm` record whether its (pointer-receiver) type implements
`BindUnmarshaler` resp. `encoding.TextUnmarshaler`; `decoded` logs the
strings passed to its custom decode method.  `vSlice z elems` carries
the element type's zero value `z`.  `vMapSS` is a `map[string]string`
target. -/
inductive RVal where
  | vInt (bits : Nat) (v : Int)
  | vUint (bits : Nat) (v : Nat)
  | vBool (b : Bool)
  | vFloat (bits : Nat) (v : Rat)
  | vString (s : String)
  | vPtr (pointeeZero : RVal) (pointee : Option RVal)
  | vStruct (bindUnm : Bool) (textUnm : Bool) (decoded : List String) (fields : List RField)
  | vSlice (elemZero : RVal) (elems : List RVal)
  | vMapSS (entries : List (String × String))

/-- One declared struct field: its name, whether it is anonymously
embedded, its struct tags as `(tagKey, tagValue)` pairs, whether it is
settable (exported), and its current value. -/
inductive RField where
  | mk (name : String) (anonymous : Bool) (tags : List (String × String))
      (canSet : Bool) (val : RVal)
end

/-- `reflect.Value.Kind` on the modelled universe. -/
def RVal.kind : RVal → FKind
  | .vInt b _ => .kInt b
  | .vUint b _ => .kUint b
  | .vBool _ => .kBool
  | .vFloat b _ => .kFloat b
  | .vString _ => .kString
  | .vPtr _ _ => .kPtr
  | .vStruct _ _ _ _ => .kStruct
  | .vSlice _ _ => .kSlice
  | .vMapSS _ => .kMap

/-- Whether `v.Addr().Interface().(BindUnmarshaler)` succeeds. -/
def RVal.isBindUnm : RVal → Bool
  | .vStruct u _ _ _ => u
  | _ => false

/-- Whether `v.Addr().Interface().(encoding.TextUnmarshaler)` succeeds. -/
def RVal.isTextUnm : RVal → Bool
  | .vStruct _ t _ _ => t
  | _ => false

/-- The name of a field. -/
def RField.name : RField → String
  | .mk n _ _ _ _ => n

/-- Whether a field is anonymously embedded. -/
def RField.anonymous : RField → Bool
  | .mk _ a _ _ _ => a

/-- The struct tags of a field. -/
def RField.tags : RField → List (String × String)
  | .mk _ _ t _ _ => t

/-- Whether a field is settable. -/
def RField.canSet : RField → Bool
  | .mk _ _ _ c _ => c

/-- The current value of a field. -/
def RField.val : RField → RVal
  | .mk _ _ _ _ v => v

/-- A parsed form/query parameter map (Go `url.Values`): keys with their
ordered value lists, in iteration order. -/
abbrev ValueMap := List (String × List String)

/-! ### Models of the external `strconv` parsing functions

These are models of the Go standard library functions the coercer
delegates to, on the argument forms the binder uses (base 10 for the
integer parsers; plain decimal notation for the float parser). -/

/-- Whether a character is an ASCII decimal digit. -/
def isDigit (c : Char) : Bool := '0' ≤ c && c ≤ '9'

/-- Whether every character in the list is a decimal digit. -/
def allDigits (l : List Char) : Bool := l.all isDigit

/-- The value of a list of decimal digits. -/
def digitsVal (l : List Char) : Nat :=
  l.foldl (fun acc c => acc * 10 + (c.toNat - '0'.toNat)) 0

/-- Model of `strconv.ParseUint(s, 10, bitSize)`. -/
def parseUint (s : String) (bitSize : Nat) : Except BErr Nat :=
  let b := if bitSize = 0 then 64 else bitSize
  if 64 < b then .error (.numError "ParseUint" s .errBit)
  else
    let cs := s.data
    if cs.isEmpty then .error (.numError "ParseUint" s .errSyn)
    else if ¬ allDigits cs then .error (.numError "ParseUint" s .errSyn)
    else
      let n := digitsVal cs
      if n < 2 ^ b then .ok n else .error (.numError "ParseUint" s .errRange)

/-- Model of `strconv.ParseInt(s, 10, bitSize)`. -/
def parseInt (s : String) (bitSize : Nat) : Except BErr Int :=
  let b := if bitSize = 0 then 64 else bitSize
  if 64 < b then .error (.numError "ParseInt" s .errBit)
  else
    match s.data with
    | [] => .error (.numError "ParseInt" s .errSyn)
    | c :: rest =>
      let p : Bool × List Char :=
        if c = '-' then (true, rest)
        else if c = '+' then (false, rest)
        else (false, c :: rest)
      let neg := p.1
      let digits := p.2
      if digits.isEmpty ∨ ¬ allDigits digits then
        .error (.numError "ParseInt" s .errSyn)
      else
        let n := digitsVal digits
        if neg then
          if n ≤ 2 ^ (b - 1) then .ok (-(n : Int))
          else .error (.numError "ParseInt" s .errRange)
        else
          if n < 2 ^ (b - 1) then .ok (n : Int)
          else .error (.numError "ParseInt" s .errRange)

/-- Model of `strconv.ParseBool`. -/
def parseBool (s : String) : Except BErr Bool :=
  if s = "1" ∨ s = "t" ∨ s = "T" ∨ s = "true" ∨ s = "TRUE" ∨ s = "True" then .ok true
  else if s = "0" ∨ s = "f" ∨ s = "F" ∨ s = "false" ∨ s = "FALSE" ∨ s = "False" then .ok false
  else .error (.numError "ParseBool" s .errSyn)

/-- Model of `strconv.ParseFloat(s, bitSize)` on plain decimal inputs
(optional sign, digits with an optional single decimal point).  Values
are represented exactly as rationals; inputs outside this decimal
fragment are reported as syntax errors. -/
def parseFloat (s : String) (_bitSize : Nat) : Except BErr Rat :=
  match s.data with
  | [] => .error (.numError "ParseFloat" s .errSyn)
  | c :: rest =>
    let p : Bool × List Char :=
      if c = '-' then (true, rest)
      else if c = '+' then (false, rest)
      else (false, c :: rest)
    let neg := p.1
    let body := p.2
    let intPart := body.takeWhile (fun ch => ch ≠ '.')
    let dotPart := body.dropWhile (fun ch => ch ≠ '.')
    let fracPart := dotPart.tail
    if (intPart.isEmpty ∧ fracPart.isEmpty) ∨ ¬ allDigits intPart ∨
        ¬ allDigits fracPart ∨ fracPart.contains '.' then
      .error (.numError "ParseFloat" s .errSyn)
    else
      let den : Nat := 10 ^ fracPart.length
      let numAbs : Nat := digitsVal intPart * den + digitsVal fracPart
      .ok (mkRat (if neg then -(numAbs : Int) else (numAbs : Int)) den)

/-! ### The scalar setters (`setIntField` .. `setFloatField`) -/

/-- `setIntField` from `bind.go`: an empty string is treated as `"0"`;
on parse success the value is stored, on failure the error is returned
and the field is left unchanged. -/
def setIntField (value : String) (bitSize : Nat) (field : RVal) : Option BErr × RVal :=
  let value := if value = "" then "0" else value
  match parseInt value bitSize with
  | .ok n =>
    match field with
    | .vInt b _ => (none, .vInt b n)
    | f => (some .panicKind, f)
  | .error e => (some e, field)

/-- `setUintField` from `bind.go`. -/
def setUintField (value : String) (bitSize : Nat) (field : RVal) : Option BErr × RVal :=
  let value := if value = "" then "0" else value
  match parseUint value bitSize with
  | .ok n =>
    match field with
    | .vUint b _ => (none, .vUint b n)
    | f => (some .panicKind, f)
  | .error e => (some e, field)

/-- `setBoolField` from `bind.go`: an empty string is treated as
`"false"`. -/
def setBoolField (value : String) (field : RVal) : Option BErr × RVal :=
  let value := if value = "" then "false" else value
  match parseBool value with
  | .ok b =>
    match field with
    | .vBool _ => (none, .vBool b)
    | f => (some .panicKind, f)
  | .error e => (some e, field)

/-- `setFloatField` from `bind.go`: an empty string is treated as
`"0.0"`. -/
def setFloatField (value : String) (bitSize : Nat) (field : RVal) : Option BErr × RVal :=
  let value := if value = "" then "0.0" else value
  match parseFloat value bitSize with
  | .ok q =>
    match field with
    | .vFloat b _ => (none, .vFloat b q)
    | f => (some .panicKind, f)
  | .error e => (some e, field)

/-! ### The custom-decode dispatch (`unmarshalField` family) -/

/-- `unmarshalFieldNonPtr` from `bind.go`: try `BindUnmarshaler` first,
then `encoding.TextUnmarshaler`.  The result is
`(handled, error, updated field)`; decoding appends the parameter to the
struct's decode log. -/
def unmarshalFieldNonPtr (value : String) (field : RVal) : Bool × Option BErr × RVal :=
  match field with
  | .vStruct true t log fs => (true, none, .vStruct true t (log ++ [value]) fs)
  | .vStruct false true log fs => (true, none, .vStruct false true (log ++ [value]) fs)
  | f => (false, none, f)

/-- `unmarshalFieldPtr` from `bind.go`: allocate the pointee when the
pointer is nil (`field.Set(reflect.New(...))` — this happens even when
the pointee turns out not to implement any unmarshaler interface), then
delegate to `unmarshalFieldNonPtr` on the pointee.  Calling it on a
non-pointer value is a `reflect.Value.IsNil` panic in Go. -/
def unmarshalFieldPtr (value : String) (field : RVal) : Bool × Option BErr × RVal :=
  match field with
  | .vPtr z p =>
    let p0 := p.getD z
    let r := unmarshalFieldNonPtr value p0
    (r.1, r.2.1, .vPtr z (some r.2.2))
  | f => (true, some .panicKind, f)

/-- `unmarshalField` from `bind.go`. -/
def unmarshalField (valueKind : FKind) (value : String) (field : RVal) :
    Bool × Option BErr × RVal :=
  match valueKind with
  | .kPtr => unmarshalFieldPtr value field
  | _ => unmarshalFieldNonPtr value field

/-! ### The scalar/pointer coercer (`setWithProperType`) -/

/-- `setWithProperType` from `bind.go`: try the custom-decode paths
first (`unmarshalField`); then dispatch on the declared kind.  The Go
code's pointer case recurses on `structField.Elem()` after
`unmarshalFieldPtr`'s allocation side effect; here `unmarshalField`'s
two cases are inlined at the top-level dispatch (on the kind and the
field shape) so the recursion is on the pointee — the observable
behavior is identical: for a pointer kind `unmarshalFieldPtr` allocates
the pointee (a reflect panic for a non-pointer field), and for every
other kind `unmarshalField` is `unmarshalFieldNonPtr`. -/
def setWithProperType (valueKind : FKind) (v : String) (field : RVal) : Option BErr × RVal :=
  match valueKind, field with
  | .kPtr, .vPtr z (some p) =>
    match unmarshalFieldNonPtr v p with
    | (true, e, p') => (e, .vPtr z (some p'))
    | (false, _, _) =>
      let r := setWithProperType p.kind v p
      (r.1, .vPtr z (some r.2))
  | .kPtr, .vPtr z none =>
    match unmarshalFieldNonPtr v z with
    | (true, e, p') => (e, .vPtr z (some p'))
    | (false, _, _) =>
      let r := setWithProperType z.kind v z
      (r.1, .vPtr z (some r.2))
  | .kPtr, f => (some .panicKind, f)
  | k, f =>
    match unmarshalFieldNonPtr v f with
    | (true, e, f') => (e, f')
    | (false, _, f') =>
      match k with
      | .kInt b => setIntField v b f'
      | .kUint b => setUintField v b f'
      | .kBool => setBoolField v f'
      | .kFloat b => setFloatField v b f'
      | .kString =>
        match f' with
        | .vString _ => (none, .vString v)
        | x => (some .panicKind, x)
      | _ => (some (.msg "unknown type"), f')

/-! ### The field walker (`bindData`) -/

/-- ASCII case folding of one character, as a code point. -/
def foldChar (c : Char) : Nat :=
  if 'A' ≤ c ∧ c ≤ 'Z' then c.toNat + 32 else c.toNat

/-- Model of `strings.EqualFold` (on the ASCII case-folding fragment). -/
def strEqualFold (a b : String) : Bool :=
  a.data.map foldChar == b.data.map foldChar

/-- The value-map lookup performed by `bindData` (lines 146–158 of
`bind.go`): an exact-key lookup first; if that misses, a linear scan in
iteration order for the first key equal under case folding. -/
def lookupValues (data : ValueMap) (name : String) : Option (List String) :=
  match data.lookup name with
  | some v => some v
  | none => (data.find? (fun kv => strEqualFold kv.1 name)).map (fun kv => kv.2)

/-- `reflect.Value.SetMapIndex` on a `map[string]string` target:
replace the binding for `k` if present, else add it. -/
def setEntry (entries : List (String × String)) (k v : String) : List (String × String) :=
  match entries with
  | [] => [(k, v)]
  | (k', v') :: rest =>
    if k' = k then (k, v) :: rest else (k', v') :: setEntry rest k v

/-- The map-target branch of `bindData` (lines 100–105): copy every
entry in as `key -> first value`.  The `v[0]` access is a panic when a
key's value list is empty. -/
def mapCopy (entries : List (String × String)) (data : ValueMap) : Option BErr × RVal :=
  match data with
  | [] => (none, .vMapSS entries)
  | (k, vs) :: rest =>
    match vs with
    | [] => (some .panicOOB, .vMapSS entries)
    | v0 :: _ => mapCopy (setEntry entries k v0) rest

/-- The element loop of the slice branch of `bindData` (lines 175–180):
each slot of the freshly made slice starts at the element type's zero
value and is coerced from the corresponding input string; the first
error aborts the loop. -/
def coerceSliceElems (elemZero : RVal) (vals : List String) : Option BErr × List RVal :=
  match vals with
  | [] => (none, [])
  | v :: vs =>
    match setWithProperType elemZero.kind v elemZero with
    | (some e, _) => (some e, [])
    | (none, x) =>
      let r := coerceSliceElems elemZero vs
      (r.1, x :: r.2)

/-- Lines 146–185 of `bindData`, for a field whose tag resolved to
`name`: look the name up in the value map (skip the field if absent),
try `unmarshalField` on the first value with the field's declared kind,
else expand a slice field elementwise, else coerce the first value via
`setWithProperType`.  `w` is the working value (`structField`, after the
anonymous-pointer dereference); `declaredKind` is
`typeField.Type.Kind()`. -/
def bindFieldTagged (declaredKind : FKind) (w : RVal) (name : String) (data : ValueMap) :
    Option BErr × RVal :=
  match lookupValues data name with
  | none => (none, w)
  | some inputValue =>
    match inputValue with
    | [] => (some .panicOOB, w)
    | v0 :: _ =>
      match unmarshalField declaredKind v0 w with
      | (true, e, w') => (e, w')
      | (false, _, w1) =>
        if w.kind = .kSlice then
          match w1 with
          | .vSlice z _ =>
            let r := coerceSliceElems z inputValue
            match r.1 with
            | some e => (some e, w1)
            | none => (none, .vSlice z r.2)
          | x => (some .panicKind, x)
        else
          setWithProperType declaredKind v0 w1

mutual
/-- `bindData` from `bind.go`: no-op on an empty value map; verbatim
copy into a map target; a structural error (queries excepted) on any
other non-struct target; otherwise walk the declared fields in order. -/
def bindData (dest : RVal) (data : ValueMap) (tag : String) : Option BErr × RVal :=
  if data = [] then (none, dest)
  else
    match dest with
    | .vMapSS entries => mapCopy entries data
    | .vStruct u t log fields =>
      let r := bindFields fields data tag
      (r.1, .vStruct u t log r.2)
    | d =>
      if tag = "query" then (none, d)
      else (some (.msg "binding element must be a struct"), d)

/-- The field loop of `bindData`: process fields in declaration order,
stopping at the first error (later fields are left untouched). -/
def bindFields (fs : List RField) (data : ValueMap) (tag : String) :
    Option BErr × List RField :=
  match fs with
  | [] => (none, [])
  | f :: rest =>
    let r := bindField f data tag
    match r.1 with
    | some e => (some e, r.2 :: rest)
    | none =>
      let rr := bindFields rest data tag
      (rr.1, r.2 :: rr.2)

/-- One iteration of the field loop (lines 117–185): dereference an
anonymously-embedded pointer (a nil one leaves an unsettable value and
the field is skipped), skip unsettable fields, reject a tagged
anonymously-embedded struct, recurse into an untagged struct that does
not implement `BindUnmarshaler`, and hand tagged fields to
`bindFieldTagged`. -/
def bindField (f : RField) (data : ValueMap) (tag : String) : Option BErr × RField :=
  match f with
  | .mk nm anon tags cs val =>
    if anon then
      match val with
      | .vPtr z none => (none, .mk nm anon tags cs (.vPtr z none))
      | .vPtr z (some p) =>
        if cs then
          let name := (tags.lookup tag).getD ""
          if p.kind = .kStruct ∧ name ≠ "" then
            (some (.msg "query/form tags are not allowed with anonymous struct field"),
              .mk nm anon tags cs (.vPtr z (some p)))
          else if name = "" then
            if p.isBindUnm = false ∧ p.kind = .kStruct then
              let r := bindData p data tag
              (r.1, .mk nm anon tags cs (.vPtr z (some r.2)))
            else (none, .mk nm anon tags cs (.vPtr z (some p)))
          else
            let r := bindFieldTagged .kPtr p name data
            (r.1, .mk nm anon tags cs (.vPtr z (some r.2)))
        else (none, .mk nm anon tags cs (.vPtr z (some p)))
      | w =>
        if cs then
          let name := (tags.lookup tag).getD ""
          if w.kind = .kStruct ∧ name ≠ "" then
            (some (.msg "query/form tags are not allowed with anonymous struct field"),
              .mk nm anon tags cs w)
          else if name = "" then
            if w.isBindUnm = false ∧ w.kind = .kStruct then
              let r := bindData w data tag
              (r.1, .mk nm anon tags cs r.2)
            else (none, .mk nm anon tags cs w)
          else
            let r := bindFieldTagged w.kind w name data
            (r.1, .mk nm anon tags cs r.2)
        else (none, .mk nm anon tags cs w)
    else
      if cs then
        let name := (tags.lookup tag).getD ""
        if name = "" then
          if val.isBindUnm = false ∧ val.kind = .kStruct then
            let r := bindData val data tag
            (r.1, .mk nm anon tags cs r.2)
          else (none, .mk nm anon tags cs val)
        else
          let r := bindFieldTagged val.kind val name data
          (r.1, .mk nm anon tags cs r.2)
      else (none, .mk nm anon tags cs val)
end

/-! ### Observation helpers for stating properties -/

/-- The working value of a field, i.e. `structField` after the
anonymous-pointer dereference of lines 119–123: the pointee for an
anonymously-embedded non-nil pointer, `none` (an invalid value) for an
anonymously-embedded nil pointer, the field value itself otherwise. -/
def RField.working : RField → Option RVal
  | .mk _ true _ _ (.vPtr _ p) => p
  | .mk _ _ _ _ v => some v

/-- Store an updated working value back into a field (writing through
the dereferenced pointer when the anonymous dereference happened). -/
def RField.rebuild : RField → RVal → RField
  | .mk nm true tg c (.vPtr z (some _)), w => .mk nm true tg c (.vPtr z (some w))
  | .mk nm anon tg c _, w => .mk nm anon tg c w

/-- The value of the `i`-th declared field of a struct value (a dummy
default otherwise); used to observe single fields of bind results. -/
def RVal.fieldValD (v : RVal) (i : Nat) : RVal :=
  match v with
  | .vStruct _ _ _ fs => ((fs.get? i).map RField.val).getD (.vBool false)
  | _ => .vBool false

/-- Observe a string value (empty default). -/
def RVal.strOf : RVal → String
  | .vString s => s
  | _ => ""

/-- Observe an integer value (`0` default). -/
def RVal.intOf : RVal → Int
  | .vInt _ n => n
  | _ => 0

/-- The string stored in the `i`-th field of a struct value. -/
def RVal.strAt (v : RVal) (i : Nat) : String := (v.fieldValD i).strOf

/-- The integer stored in the `i`-th field of a struct value. -/
def RVal.intAt (v : RVal) (i : Nat) : Int := (v.fieldValD i).intOf

/-! ### The source dispatcher (`BindBody`, `BindQueryParams`, `Bind`) -/

/-- Model of `strings.HasPrefix p s`: `s` starts with `p`. -/
def strStartsWith (s p : String) : Bool := p.data.isPrefixOf s.data

/-- Modelled from the spec: the MIME content-type prefix constants the
dispatcher compares against (their defining source file is not part of
the provided sources; §4.1 of the spec names the prefixes). -/
def MIMEApplicationJSON : String := "application/json"

/-- Modelled from the spec: see `MIMEApplicationJSON`. -/
def MIMEApplicationXML : String := "application/xml"

/-- Modelled from the spec: see `MIMEApplicationJSON`. -/
def MIMETextXML : String := "text/xml"

/-- Modelled from the spec: see `MIMEApplicationJSON`. -/
def MIMEApplicationForm : String := "application/x-www-form-urlencoded"

/-- Modelled from the spec: see `MIMEApplicationJSON`. -/
def MIMEMultipartForm : String := "multipart/form-data"

/-- Modelled from the spec: the outcome of the external structured-body
decoding facility: either a decoded flat object of string-valued keys,
or a malformed payload the decoder rejects. -/
inductive JsonBody where
  | obj (pairs : List (String × String))
  | malformed

/-- A bindable request: the parts of `httpx.Request` the binder
consumes — the HTTP method, content length and content type, the body
payload (as seen through the external structured decoder), and the
parsed query/form parameter maps. -/
structure Request where
  method : String
  contentLength : Nat
  contentType : String
  body : JsonBody
  queryData : ValueMap
  formData : ValueMap

/-- Modelled from the spec: field population by the external JSON
decoder — a decoded object value is stored into the string field of the
same name. -/
def jsonSetFields (fs : List RField) (k v : String) : List RField :=
  fs.map (fun f =>
    match f with
    | .mk nm anon tg cs (.vString s) =>
      if nm = k then .mk nm anon tg cs (.vString v) else .mk nm anon tg cs (.vString s)
    | f => f)

/-- Modelled from the spec: the external JSON decoder (`encoding/json`,
outside this repository).  A malformed payload yields a client-side
decode failure; a decoded object populates matching string fields of a
struct target. -/
def jsonDecode (b : JsonBody) (dest : RVal) : Option BErr × RVal :=
  match b with
  | .malformed => (some (.http 400 "json decode error"), dest)
  | .obj pairs =>
    match dest with
    | .vStruct u t log fs =>
      (none, .vStruct u t log (pairs.foldl (fun acc kv => jsonSetFields acc kv.1 kv.2) fs))
    | d => (some (.http 400 "json decode error"), d)

/-- `BindBody` from `bind.go`: a no-op on an empty body, then dispatch
on the content-type prefix — JSON/XML to the external structured
decoder (decode errors that are not already `HTTPError`s are wrapped as
status-400 failures), form encodings through `bindData` with source kind
`form` (errors wrapped as status 400), anything else an
unsupported-media-type failure. -/
def BindBody (req : Request) (v : RVal) : Option BErr × RVal :=
  if req.contentLength = 0 then (none, v)
  else if strStartsWith req.contentType MIMEApplicationJSON then
    match jsonDecode req.body v with
    | (some e, v') =>
      (some (match e with
              | .http c m => .http c m
              | e' => .http 400 e'.text), v')
    | r => r
  else if strStartsWith req.contentType MIMEApplicationXML ∨
      strStartsWith req.contentType MIMETextXML then
    -- Modelled from the spec: the external XML decoder is the same
    -- abstract structured-decoding facility as the JSON one.
    match jsonDecode req.body v with
    | (some e, v') => (some (.http 400 e.text), v')
    | r => r
  else if strStartsWith req.contentType MIMEApplicationForm ∨
      strStartsWith req.contentType MIMEMultipartForm then
    match bindData v req.formData "form" with
    | (some e, v') => (some (.http 400 e.text), v')
    | r => r
  else (some (.http 415 "Unsupported Media Type"), v)

/-- `BindQueryParams` from `bind.go`: `bindData` with source kind
`query`, errors wrapped as status-400 failures. -/
def BindQueryParams (req : Request) (v : RVal) : Option BErr × RVal :=
  match bindData v req.queryData "query" with
  | (some e, v') => (some (.http 400 e.text), v')
  | r => r

/-- `Bind` from `bind.go`: body binding first — only for POST, PUT and
PATCH, returning early on a body-bind failure — then query-parameter
binding into the same target. -/
def Bind (req : Request) (v : RVal) : Option BErr × RVal :=
  if req.method = "POST" ∨ req.method = "PUT" ∨ req.method = "PATCH" then
    match BindBody req v with
    | (some e, v') => (some e, v')
    | (none, v') => BindQueryParams req v'
  else BindQueryParams req v

/-! ## Helper lemmas -/

theorem parseInt_zero (b : Nat) (hb : b ≤ 64) : parseInt "0" b = .ok 0 := by
  have hd : ("0" : String).data = ['0'] := rfl
  unfold parseInt
  rw [hd]
  by_cases h0 : b = 0
  · subst h0; rfl
  · have h1 : ¬ (64 < b) := by omega
    have h2 : (0 : Nat) < 2 ^ (b - 1) := Nat.pos_pow_of_pos _ (by norm_num)
    have h3 : allDigits ['0'] = true := rfl
    have h4 : digitsVal ['0'] = 0 := rfl
    simp [h0, h1, h2, h3, h4]

theorem parseUint_zero (b : Nat) (hb : b ≤ 64) : parseUint "0" b = .ok 0 := by
  have hd : ("0" : String).data = ['0'] := rfl
  unfold parseUint
  rw [hd]
  by_cases h0 : b = 0
  · subst h0; rfl
  · have h1 : ¬ (64 < b) := by omega
    have h2 : (0 : Nat) < 2 ^ b := Nat.pos_pow_of_pos _ (by norm_num)
    have h3 : allDigits ['0'] = true := rfl
    have h4 : digitsVal ['0'] = 0 := rfl
    simp [h0, h1, h2, h3, h4]

/-! ## Claim C5 -/

/-- Claim C5: for every integer (signed or unsigned, any declared
bit-width), boolean, and floating-point field, coercing the empty
string succeeds and assigns the documented zero value (`0`, `false`,
`0.0`) rather than returning a failure. -/
theorem empty_string_assigns_zero :
    (∀ (b w : Nat) (v : Int), b ≤ 64 →
        setIntField "" b (.vInt w v) = (none, .vInt w 0))
    ∧ (∀ (b w v : Nat), b ≤ 64 →
        setUintField "" b (.vUint w v) = (none, .vUint w 0))
    ∧ (∀ x : Bool, setBoolField "" (.vBool x) = (none, .vBool false))
    ∧ (∀ (b w : Nat) (x : Rat), setFloatField "" b (.vFloat w x) = (none, .vFloat w 0)) := by
  refine ⟨fun b w v hb => ?_, fun b w v hb => ?_, fun x => rfl, fun b w x => rfl⟩
  · unfold setIntField
    simp [parseInt_zero b hb]
  · unfold setUintField
    simp [parseUint_zero b hb]

/-- Witness for `empty_string_assigns_zero` at concrete widths. -/
theorem empty_string_assigns_zero_witness :
    setIntField "" 8 (.vInt 8 5) = (none, .vInt 8 0)
    ∧ setUintField "" 0 (.vUint 0 5) = (none, .vUint 0 0)
    ∧ setBoolField "" (.vBool true) = (none, .vBool false)
    ∧ setFloatField "" 64 (.vFloat 64 3) = (none, .vFloat 64 0) :=
  ⟨empty_string_assigns_zero.1 8 8 5 (by decide),
   empty_string_assigns_zero.2.1 0 0 5 (by decide),
   empty_string_assigns_zero.2.2.1 true,
   empty_string_assigns_zero.2.2.2 64 64 3⟩

/-! ## Claim C6 -/

/-- Claim C6: for every integer or unsigned-integer field, a non-empty
string that does not parse as a base-10 integer within the field's
declared bit-width makes the coercer return the parse failure verbatim
as a conversion failure, and the field's stored value is left unchanged. -/
theorem int_parse_failure_leaves_field :
    ∀ (s : String) (b : Nat) (fld : RVal),
      (∀ e, s ≠ "" → parseInt s b = .error e → setIntField s b fld = (some e, fld))
      ∧ (∀ e, s ≠ "" → parseUint s b = .error e → setUintField s b fld = (some e, fld)) := by
  intro s b fld
  constructor
  · intro e hs hp
    unfold setIntField
    simp [hs, hp]
  · intro e hs hp
    unfold setUintField
    simp [hs, hp]

/-- Witness for `int_parse_failure_leaves_field`: a syntax failure and a
range failure, each leaving the field untouched. -/
theorem int_parse_failure_leaves_field_witness :
    setIntField "abc" 64 (.vInt 64 7) = (some (.numError "ParseInt" "abc" .errSyn), .vInt 64 7)
    ∧ setUintField "300" 8 (.vUint 8 7) = (some (.numError "ParseUint" "300" .errRange), .vUint 8 7) :=
  ⟨(int_parse_failure_leaves_field "abc" 64 (.vInt 64 7)).1 _ (by decide) (by rfl),
   (int_parse_failure_leaves_field "300" 8 (.vUint 8 7)).2 _ (by decide) (by rfl)⟩

/-! ## Claim C4 -/

/-- Claim C4: for every tagged field, an exact-case key in the value map
supplies the values even when a differently-cased variant also exists;
with no exact-case key, the first case-insensitive match of the scan
over the map supplies the values; with no match at all the field is
skipped without error. -/
theorem tagged_lookup_precedence (data : ValueMap) (name : String) :
    (∀ vs, data.lookup name = some vs → lookupValues data name = some vs)
    ∧ (data.lookup name = none →
        ∀ kv, data.find? (fun kv => strEqualFold kv.1 name) = some kv →
          lookupValues data name = some kv.2 ∧ strEqualFold kv.1 name = true ∧ kv ∈ data)
    ∧ (data.lookup name = none →
        data.find? (fun kv => strEqualFold kv.1 name) = none →
        lookupValues data name = none)
    ∧ (∀ (nm tag : String) (tags : List (String × String)) (cs : Bool) (val : RVal),
        (tags.lookup tag).getD "" = name → name ≠ "" →
        lookupValues data name = none →
        bindField (.mk nm false tags cs val) data tag = (none, .mk nm false tags cs val)) := by
  refine ⟨?_, ?_, ?_, ?_⟩
  · intro vs h
    unfold lookupValues
    rw [h]
  · intro hnone kv hf
    refine ⟨?_, ?_, List.mem_of_find?_eq_some hf⟩
    · unfold lookupValues
      rw [hnone, hf]
      rfl
    · simpa using List.find?_some hf
  · intro hnone hf
    unfold lookupValues
    rw [hnone, hf]
    rfl
  · intro nm tag tags cs val htag hne hlv
    cases cs
    · rfl
    · unfold bindField
      simp only [htag]
      unfold bindFieldTagged
      simp [hne, hlv]

/-- Witness for `tagged_lookup_precedence`: exact match wins over a
case variant; case-insensitive fallback finds the first variant; a
miss skips the field without error. -/
theorem tagged_lookup_precedence_witness :
    lookupValues [("name", ["a"]), ("Name", ["b"])] "Name" = some ["b"]
    ∧ lookupValues [("name", ["a"])] "Name" = some ["a"]
    ∧ bindField (.mk "F" false [("query", "missing")] true (.vString "x"))
        [("name", ["a"])] "query" =
        (none, .mk "F" false [("query", "missing")] true (.vString "x")) :=
  ⟨(tagged_lookup_precedence [("name", ["a"]), ("Name", ["b"])] "Name").1 ["b"] (by rfl),
   ((tagged_lookup_precedence [("name", ["a"])] "Name").2.1 (by rfl) ("name", ["a"]) (by rfl)).1,
   (tagged_lookup_precedence [("name", ["a"])] "missing").2.2.2 "F" "query"
     [("query", "missing")] true (.vString "x") (by rfl) (by decide) (by rfl)⟩

/-! ## Claim C8 -/

/-- Claim C8, counterexample to the unconditional claim: a decode call
on a non-composite, non-map target with source kind `form` and an empty
value map succeeds (the empty-map no-op guard fires before the shape
check), so the claim "for any other source kind the call fails" is
false as stated for every decode call. -/
theorem non_struct_form_empty_map_succeeds :
    bindData (.vInt 0 5) [] "form" = (none, .vInt 0 5) := by rfl

/-- Claim C8, amended: for every decode call with a non-empty value map
whose target is neither a composite (struct) nor a map-like container,
the `query` source kind returns success leaving the target unmodified,
and any other source kind fails with the structural-binding error. -/
theorem non_struct_target_dispatch (d : RVal) (data : ValueMap) (tag : String)
    (hd : data ≠ [])
    (hs : d.kind ≠ .kStruct) (hm : d.kind ≠ .kMap) :
    bindData d data tag =
      if tag = "query" then (none, d)
      else (some (.msg "binding element must be a struct"), d) := by
  unfold bindData
  rw [if_neg hd]
  cases d <;> simp_all [RVal.kind]

/-- Witness for `non_struct_target_dispatch` on both source kinds. -/
theorem non_struct_target_dispatch_witness :
    bindData (.vBool true) [("a", ["1"])] "form" =
      (some (.msg "binding element must be a struct"), .vBool true)
    ∧ bindData (.vBool true) [("a", ["1"])] "query" = (none, .vBool true) := by
  constructor
  · have h := non_struct_target_dispatch (.vBool true) [("a", ["1"])] "form"
      (by decide) (by decide) (by decide)
    simpa using h
  · have h := non_struct_target_dispatch (.vBool true) [("a", ["1"])] "query"
      (by decide) (by decide) (by decide)
    simpa using h

/-! ## Claim C9 -/

/-- Claim C9: for a pointer-kind field, coercion allocates a zero value
of the pointee type when the pointer is nil and coerces the string into
the pointee; after a successful coercion the pointer is non-nil and
points at the coerced value (which, when the pointee type has no custom
decode capability, is the recursive scalar coercion of the previous
pointee — or of the fresh zero value when the pointer was nil). -/
theorem ptr_alloc_then_coerce (z : RVal) (p : Option RVal) (s : String)
    (_h : (setWithProperType .kPtr s (.vPtr z p)).1 = none) :
    ∃ q, (setWithProperType .kPtr s (.vPtr z p)).2 = .vPtr z (some q)
      ∧ ((p.getD z).isBindUnm = false → (p.getD z).isTextUnm = false →
          q = (setWithProperType (p.getD z).kind s (p.getD z)).2) := by
  cases p with
  | none =>
    cases z
    case vStruct u t log fs =>
      cases u
      · cases t
        · exact ⟨_, rfl, fun _ _ => rfl⟩
        · refine ⟨_, rfl, fun hb ht => ?_⟩
          simp [Option.getD, RVal.isTextUnm] at ht
      · refine ⟨_, rfl, fun hb ht => ?_⟩
        simp [Option.getD, RVal.isBindUnm] at hb
    all_goals exact ⟨_, rfl, fun _ _ => rfl⟩
  | some q0 =>
    cases q0
    case vStruct u t log fs =>
      cases u
      · cases t
        · exact ⟨_, rfl, fun _ _ => rfl⟩
        · refine ⟨_, rfl, fun hb ht => ?_⟩
          simp [Option.getD, RVal.isTextUnm] at ht
      · refine ⟨_, rfl, fun hb ht => ?_⟩
        simp [Option.getD, RVal.isBindUnm] at hb
    all_goals exact ⟨_, rfl, fun _ _ => rfl⟩

/-- Witness for `ptr_alloc_then_coerce`: a nil `*int64` pointer field
coerced from `"42"` ends up pointing at the parsed value. -/
theorem ptr_alloc_then_coerce_witness :
    (setWithProperType .kPtr "42" (.vPtr (.vInt 64 0) none)).1 = none
    ∧ ∃ q, (setWithProperType .kPtr "42" (.vPtr (.vInt 64 0) none)).2 =
        .vPtr (.vInt 64 0) (some q)
      ∧ (((Option.none).getD (RVal.vInt 64 0)).isBindUnm = false →
          ((Option.none).getD (RVal.vInt 64 0)).isTextUnm = false →
          q = (setWithProperType ((Option.none).getD (RVal.vInt 64 0)).kind "42"
                ((Option.none).getD (RVal.vInt 64 0))).2) :=
  ⟨by rfl, ptr_alloc_then_coerce (.vInt 64 0) none "42" (by rfl)⟩

/-! ## Claim C7 -/

theorem coerceSliceElems_map (z : RVal) (vs : List String)
    (hok : ∀ s ∈ vs, (setWithProperType z.kind s z).1 = none) :
    coerceSliceElems z vs = (none, vs.map (fun s => (setWithProperType z.kind s z).2)) := by
  induction vs with
  | nil => rfl
  | cons v rest ih =>
    have hv : (setWithProperType z.kind v z).1 = none := hok v (by simp)
    have ihh := ih (fun s hs => hok s (List.mem_cons_of_mem _ hs))
    unfold coerceSliceElems
    rcases hr : setWithProperType z.kind v z with ⟨e, x⟩
    rw [hr] at hv
    simp only at hv
    subst hv
    rw [ihh]
    simp [hr]

/-- Claim C7: a collection-typed tagged field whose tag key matches an
entry of the value map, with no custom-decode path applying, is
assigned the elementwise coercion of all values under the matched key,
preserving input order. -/
theorem slice_field_elementwise (nm : String) (tags : List (String × String))
    (z : RVal) (elems : List RVal) (data : ValueMap) (tag name : String) (vs : List String)
    (htag : (tags.lookup tag).getD "" = name) (hne : name ≠ "")
    (hlv : lookupValues data name = some vs) (hv : vs ≠ [])
    (hok : ∀ s ∈ vs, (setWithProperType z.kind s z).1 = none) :
    bindField (.mk nm false tags true (.vSlice z elems)) data tag =
      (none, .mk nm false tags true
        (.vSlice z (vs.map (fun s => (setWithProperType z.kind s z).2)))) := by
  unfold bindField
  simp only [htag]
  unfold bindFieldTagged
  rw [hlv]
  cases vs with
  | nil => exact absurd rfl hv
  | cons v0 rest =>
    simp [hne, RVal.kind, unmarshalField, unmarshalFieldNonPtr,
      coerceSliceElems_map z (v0 :: rest) hok]

/-- Witness for `slice_field_elementwise`: the spec's `ids` example
yields the ordered sequence `[1, 2, 3]`. -/
theorem slice_field_elementwise_witness :
    bindField (.mk "Ids" false [("query", "ids")] true (.vSlice (.vInt 64 0) []))
        [("ids", ["1", "2", "3"])] "query" =
      (none, .mk "Ids" false [("query", "ids")] true
        (.vSlice (.vInt 64 0)
          (["1", "2", "3"].map
            (fun s => (setWithProperType (RVal.vInt 64 0).kind s (.vInt 64 0)).2)))) :=
  slice_field_elementwise "Ids" [("query", "ids")] (.vInt 64 0) [] [("ids", ["1", "2", "3"])]
    "query" "ids" ["1", "2", "3"] (by rfl) (by decide) (by rfl) (by decide) (by decide)

/-! ## Claim C2 -/

theorem bindFields_cons (g : RField) (gs : List RField) (data : ValueMap) (tag : String) :
    bindFields (g :: gs) data tag =
      (match (bindField g data tag).1 with
        | some e => (some e, (bindField g data tag).2 :: gs)
        | none =>
          ((bindFields gs data tag).1,
            (bindField g data tag).2 :: (bindFields gs data tag).2)) := rfl

theorem bindFields_append_none (pre rest : List RField) (data : ValueMap) (tag : String)
    (h : (bindFields pre data tag).1 = none) :
    bindFields (pre ++ rest) data tag =
      ((bindFields rest data tag).1,
        (bindFields pre data tag).2 ++ (bindFields rest data tag).2) := by
  induction pre with
  | nil =>
    rcases hbr : bindFields rest data tag with ⟨e, fs⟩
    simp [bindFields_cons, hbr]
    rfl
  | cons f fs ih =>
    rw [bindFields_cons f fs] at h
    rcases hbf : bindField f data tag with ⟨e1, f'⟩
    rw [hbf] at h
    cases e1 with
    | some e => simp at h
    | none =>
      simp only at h
      have ihh := ih h
      rw [List.cons_append, bindFields_cons f (fs ++ rest), hbf, bindFields_cons f fs, hbf]
      simp [ihh]

/-- Claim C2, counterexample to the unconditional claim: with an empty
value map, a decode over a target containing an anonymously-embedded
composite field that carries an explicit tag for the active source kind
succeeds (the empty-map no-op guard fires first), so the error is not
raised "independent of the contents of the value map". -/
theorem anonymous_tagged_composite_empty_map_succeeds :
    bindData (.vStruct false false []
        [.mk "E" true [("query", "e")] true (.vStruct false false [] [])]) [] "query" =
      (none, .vStruct false false []
        [.mk "E" true [("query", "e")] true (.vStruct false false [] [])]) := by rfl

/-- Claim C2, amended: for every target struct containing a settable
anonymously-embedded composite (struct) field that also declares an
explicit binding tag for the active source kind, the field-walking
decode over a non-empty value map fails with the structural-binding
error — independent of which entries the map holds — provided every
earlier field in declaration order binds without error. -/
theorem anonymous_tagged_composite_errs
    (u t : Bool) (log : List String) (pre post : List RField)
    (nm : String) (tags : List (String × String)) (inner : RVal)
    (data : ValueMap) (tag : String)
    (hd : data ≠ [])
    (hk : inner.kind = .kStruct)
    (hnm : (tags.lookup tag).getD "" ≠ "")
    (hpre : (bindFields pre data tag).1 = none) :
    (bindData (.vStruct u t log (pre ++ .mk nm true tags true inner :: post)) data tag).1 =
      some (.msg "query/form tags are not allowed with anonymous struct field") := by
  have hbf : (bindField (.mk nm true tags true inner) data tag).1 =
      some (.msg "query/form tags are not allowed with anonymous struct field") := by
    cases inner
    case vStruct a b c d =>
      unfold bindField
      simp [hnm, RVal.kind]
    all_goals simp [RVal.kind] at hk
  unfold bindData
  rw [if_neg hd]
  simp only
  rw [bindFields_append_none pre _ data tag hpre]
  rcases hf : bindField (.mk nm true tags true inner) data tag with ⟨e1, f'⟩
  rw [hf] at hbf
  simp only at hbf
  subst hbf
  rw [bindFields_cons, hf]

/-- Witness for `anonymous_tagged_composite_errs` at a concrete target
and non-empty map. -/
theorem anonymous_tagged_composite_errs_witness :
    (bindData (.vStruct false false []
        ([] ++ .mk "E" true [("query", "e")] true (.vStruct false false [] []) :: []))
        [("z", ["1"])] "query").1 =
      some (.msg "query/form tags are not allowed with anonymous struct field") :=
  anonymous_tagged_composite_errs false false [] [] [] "E" [("query", "e")]
    (.vStruct false false [] []) [("z", ["1"])] "query"
    (by decide) (by rfl) (by decide) (by rfl)

/-! ## Claim C3 -/

/-- A struct type that implements only `encoding.TextUnmarshaler` (not
`BindUnmarshaler`), with a tagged inner field; used to probe the
untagged-field recursion policy. -/
def textUnmInner : RVal :=
  .vStruct false true [] [.mk "X" false [("query", "x")] true (.vInt 64 0)]

/-- A target with a single untagged field of type `textUnmInner`. -/
def textUnmOuter : RVal :=
  .vStruct false false [] [.mk "Inner" false [] true textUnmInner]

/-- Claim C3, counterexample: an untagged composite field whose type
declares the custom string-decoding capability in its
`encoding.TextUnmarshaler` form (but not `BindUnmarshaler`) is NOT
skipped: the walker recurses into it and populates its tagged inner
field, so "if it is a composite that does declare the capability,
recursion is skipped and the field is left untouched" is false as
stated. -/
theorem untagged_textunm_composite_recursed :
    RVal.isTextUnm textUnmInner = true
    ∧ RVal.isBindUnm textUnmInner = false
    ∧ bindData textUnmOuter [("x", ["5"])] "query" =
        (none, .vStruct false false [] [.mk "Inner" false [] true
          (.vStruct false true [] [.mk "X" false [("query", "x")] true (.vInt 64 5)])])
    ∧ RVal.intAt ((bindData textUnmOuter [("x", ["5"])] "query").2.fieldValD 0) 0 ≠
        RVal.intAt (textUnmOuter.fieldValD 0) 0 := by
  refine ⟨rfl, rfl, rfl, ?_⟩
  decide

/-- Claim C3, amended: for every untagged settable field, if the
working value is a composite that does not implement the
`UnmarshalParam` (BindUnmarshaler) capability the walker recurses into
it with the same value map and source kind — even when the composite
implements the text-unmarshal capability; if the working composite
implements the `UnmarshalParam` capability, recursion is skipped and
the field is left untouched; every other untagged field is skipped and
never populated by that source's decode pass. -/
theorem untagged_field_policy (f : RField) (data : ValueMap) (tag : String)
    (hnm : (f.tags.lookup tag).getD "" = "") :
    bindField f data tag =
      match RField.working f with
      | some w =>
        if f.canSet = true ∧ w.isBindUnm = false ∧ w.kind = .kStruct then
          ((bindData w data tag).1, RField.rebuild f (bindData w data tag).2)
        else (none, f)
      | none => (none, f) := by
  rcases f with ⟨nm, anon, tags, cs, val⟩
  simp only [RField.tags] at hnm
  cases anon
  · cases cs
    · cases val <;>
        simp [bindField, RField.working, RField.rebuild, RField.canSet]
    · cases val with
      | vStruct u t log fs =>
        cases u <;>
          (unfold bindField;
           simp [hnm, RVal.kind, RVal.isBindUnm, RField.working, RField.rebuild, RField.canSet])
      | _ =>
        unfold bindField
        simp [hnm, RVal.kind, RVal.isBindUnm, RField.working, RField.rebuild, RField.canSet]
  · cases cs
    · cases val with
      | vPtr z p =>
        cases p <;>
          simp [bindField, RField.working, RField.rebuild, RField.canSet]
      | _ =>
        simp [bindField, RField.working, RField.rebuild, RField.canSet]
    · cases val with
      | vPtr z p =>
        cases p with
        | none =>
          simp [bindField, RField.working, RField.rebuild, RField.canSet]
        | some q =>
          cases q with
          | vStruct u t log fs =>
            cases u <;>
              (unfold bindField;
               simp [hnm, RVal.kind, RVal.isBindUnm, RField.working, RField.rebuild,
                 RField.canSet])
          | _ =>
            unfold bindField
            simp [hnm, RVal.kind, RVal.isBindUnm, RField.working, RField.rebuild, RField.canSet]
      | vStruct u t log fs =>
        cases u <;>
          (unfold bindField;
           simp [hnm, RVal.kind, RVal.isBindUnm, RField.working, RField.rebuild, RField.canSet])
      | _ =>
        unfold bindField
        simp [hnm, RVal.kind, RVal.isBindUnm, RField.working, RField.rebuild, RField.canSet]

/-- Witness for `untagged_field_policy`: both the recursion case (plain
composite) and the skip case (a `BindUnmarshaler` composite). -/
theorem untagged_field_policy_witness :
    bindField (.mk "Inner" false [] true (.vStruct false false [] [])) [("x", ["5"])] "query" =
      ((bindData (.vStruct false false [] []) [("x", ["5"])] "query").1,
        RField.rebuild (.mk "Inner" false [] true (.vStruct false false [] []))
          (bindData (.vStruct false false [] []) [("x", ["5"])] "query").2)
    ∧ bindField (.mk "U" false [] true (.vStruct true false [] [])) [("x", ["5"])] "query" =
        (none, .mk "U" false [] true (.vStruct true false [] [])) := by
  constructor
  · have h := untagged_field_policy (.mk "Inner" false [] true (.vStruct false false [] []))
      [("x", ["5"])] "query" (by rfl)
    simpa using h
  · have h := untagged_field_policy (.mk "U" false [] true (.vStruct true false [] []))
      [("x", ["5"])] "query" (by rfl)
    simpa using h

/-! ## Claim C1 -/

/-- The spec's combined-bind example target: one string field tagged
`query:"status"`. -/
def statusTarget : RVal :=
  .vStruct false false [] [.mk "Status" false [("query", "status")] true (.vString "")]

/-- The spec's combined-bind example request: a PUT whose JSON body sets
`Status="pending"` and whose query string carries `status=done`. -/
def putStatusReq : Request :=
  Request.mk "PUT" 1 "application/json" (.obj [("Status", "pending")])
    [("status", ["done"])] []

/-- A POST carrying a form body whose value `n=abc` fails integer
coercion, while the query string carries `status=done`. -/
def postFormReq : Request :=
  Request.mk "POST" 1 "application/x-www-form-urlencoded" (.obj [])
    [("status", ["done"])] [("n", ["abc"])]

/-- The target bound by `postFormReq`: an int field tagged `form:"n"`
and a string field tagged `query:"status"`. -/
def postFormTarget : RVal :=
  .vStruct false false []
    [.mk "N" false [("form", "n")] true (.vInt 64 0),
     .mk "Status" false [("query", "status")] true (.vString "")]

/-- Claim C1, counterexample to "then always performs a query-parameter
bind": when the body bind fails, `Bind` returns that failure without
running the query pass — the query-tagged field stays empty even though
a query bind would have set it to `"done"`. -/
theorem bind_skips_query_after_body_error :
    (Bind postFormReq postFormTarget).1 =
      some (.http 400 ((BErr.numError "ParseInt" "abc" .errSyn).text))
    ∧ (Bind postFormReq postFormTarget).2.strAt 1 = ""
    ∧ (BindQueryParams postFormReq postFormTarget).2.strAt 1 = "done"
    ∧ (Bind postFormReq postFormTarget).2.strAt 1 ≠
        (BindQueryParams postFormReq postFormTarget).2.strAt 1 := by
  refine ⟨rfl, rfl, rfl, ?_⟩
  decide

/-- Claim C1, amended: `Bind` performs a body bind if and only if the
request method is POST, PUT or PATCH; if the body bind fails, that
failure is returned and the query pass is skipped; otherwise a
query-parameter bind into the same target always follows, so for a
field supplied by both sources the query-sourced value overwrites the
body-sourced value (the PUT example: body `Status="pending"` is
overridden to `"done"` by `?status=done`). -/
theorem bind_body_iff_method_then_query :
    (∀ (req : Request) (v : RVal),
        ¬(req.method = "POST" ∨ req.method = "PUT" ∨ req.method = "PATCH") →
        Bind req v = BindQueryParams req v)
    ∧ (∀ (req : Request) (v : RVal),
        (req.method = "POST" ∨ req.method = "PUT" ∨ req.method = "PATCH") →
        (BindBody req v).1 = none →
        Bind req v = BindQueryParams req (BindBody req v).2)
    ∧ (∀ (req : Request) (v : RVal) (e : BErr),
        (req.method = "POST" ∨ req.method = "PUT" ∨ req.method = "PATCH") →
        (BindBody req v).1 = some e →
        Bind req v = (some e, (BindBody req v).2))
    ∧ ((BindBody putStatusReq statusTarget).2.strAt 0 = "pending"
       ∧ Bind putStatusReq statusTarget =
          (none, .vStruct false false []
            [.mk "Status" false [("query", "status")] true (.vString "done")])) := by
  refine ⟨?_, ?_, ?_, rfl, rfl⟩
  · intro req v h
    unfold Bind
    rw [if_neg h]
  · intro req v h hb
    unfold Bind
    rw [if_pos h]
    rcases hbb : BindBody req v with ⟨e, v'⟩
    rw [hbb] at hb
    simp only at hb
    subst hb
    rfl
  · intro req v e h hb
    unfold Bind
    rw [if_pos h]
    rcases hbb : BindBody req v with ⟨e', v'⟩
    rw [hbb] at hb
    simp only at hb
    subst hb
    rfl

/-- Witness for `bind_body_iff_method_then_query`: a GET request skips
the body pass; the PUT example runs body then query. -/
theorem bind_body_iff_method_then_query_witness :
    ¬((Request.mk "GET" 0 "" (.obj []) [] []).method = "POST"
        ∨ (Request.mk "GET" 0 "" (.obj []) [] []).method = "PUT"
        ∨ (Request.mk "GET" 0 "" (.obj []) [] []).method = "PATCH")
    ∧ Bind (Request.mk "GET" 0 "" (.obj []) [] []) statusTarget =
        BindQueryParams (Request.mk "GET" 0 "" (.obj []) [] []) statusTarget
    ∧ (BindBody putStatusReq statusTarget).1 = none
    ∧ Bind putStatusReq statusTarget =
        BindQueryParams putStatusReq (BindBody putStatusReq statusTarget).2 :=
  ⟨by decide,
   bind_body_iff_method_then_query.1 (Request.mk "GET" 0 "" (.obj []) [] []) statusTarget
     (by decide),
   by rfl,
   bind_body_iff_method_then_query.2.1 putStatusReq statusTarget (by decide) (by rfl)⟩

/-! ## Claim C10 -/

/-! ## Claim C10 -/

theorem parseInt_no_oob (s : String) (b : Nat) : parseInt s b ≠ .error .panicOOB := by
  intro h
  unfold parseInt at h
  rcases hsd : s.data with _ | ⟨c, rest⟩ <;>
    rw [hsd] at h <;>
    simp only [ite_eq_iff] at h <;>
    simp_all

theorem parseUint_no_oob (s : String) (b : Nat) : parseUint s b ≠ .error .panicOOB := by
  intro h
  unfold parseUint at h
  simp only [ite_eq_iff] at h
  simp_all

theorem parseBool_no_oob (s : String) : parseBool s ≠ .error .panicOOB := by
  intro h
  unfold parseBool at h
  simp only [ite_eq_iff] at h
  simp_all

theorem parseFloat_no_oob (s : String) (b : Nat) : parseFloat s b ≠ .error .panicOOB := by
  intro h
  unfold parseFloat at h
  rcases hsd : s.data with _ | ⟨c, rest⟩ <;>
    rw [hsd] at h <;>
    simp only [ite_eq_iff] at h <;>
    simp_all

theorem setIntField_no_oob (v : String) (b : Nat) (f : RVal) :
    (setIntField v b f).1 ≠ some .panicOOB := by
  intro h
  simp only [setIntField] at h
  split at h
  next n heq => cases f <;> simp_all
  next e heq =>
    simp only [Option.some.injEq] at h
    subst h
    exact parseInt_no_oob _ _ heq

theorem setUintField_no_oob (v : String) (b : Nat) (f : RVal) :
    (setUintField v b f).1 ≠ some .panicOOB := by
  intro h
  simp only [setUintField] at h
  split at h
  next n heq => cases f <;> simp_all
  next e heq =>
    simp only [Option.some.injEq] at h
    subst h
    exact parseUint_no_oob _ _ heq

theorem setBoolField_no_oob (v : String) (f : RVal) :
    (setBoolField v f).1 ≠ some .panicOOB := by
  intro h
  simp only [setBoolField] at h
  split at h
  next x heq => cases f <;> simp_all
  next e heq =>
    simp only [Option.some.injEq] at h
    subst h
    exact parseBool_no_oob _ heq

theorem setFloatField_no_oob (v : String) (b : Nat) (f : RVal) :
    (setFloatField v b f).1 ≠ some .panicOOB := by
  intro h
  simp only [setFloatField] at h
  split at h
  next q heq => cases f <;> simp_all
  next e heq =>
    simp only [Option.some.injEq] at h
    subst h
    exact parseFloat_no_oob _ _ heq

theorem unmarshalFieldNonPtr_no_oob (v : String) (f : RVal) :
    (unmarshalFieldNonPtr v f).2.1 ≠ some .panicOOB := by
  rcases f with _ | _ | _ | _ | _ | _ | ⟨u, t, log, fs⟩ | _ | _ <;>
    try simp [unmarshalFieldNonPtr]
  cases u <;> cases t <;> simp [unmarshalFieldNonPtr]

theorem setWithProperType_no_oob (k : FKind) (s : String) (f : RVal) :
    (setWithProperType k s f).1 ≠ some .panicOOB := by
  intro h
  unfold setWithProperType at h
  split at h
  next z p =>
    split at h
    next e p' heq =>
      simp only at h
      exact unmarshalFieldNonPtr_no_oob s p (by rw [heq]; simpa using h)
    next heq =>
      simp only at h
      exact setWithProperType_no_oob p.kind s p h
  next z =>
    split at h
    next e p' heq =>
      simp only at h
      exact unmarshalFieldNonPtr_no_oob s z (by rw [heq]; simpa using h)
    next heq =>
      simp only at h
      exact setWithProperType_no_oob z.kind s z h
  next =>
    simp at h
  next k' f' hne1 hne2 hne3 =>
    split at h
    next e f'' heq =>
      simp only at h
      exact unmarshalFieldNonPtr_no_oob s f (by rw [heq]; simpa using h)
    next f'' heq =>
      split at h
      · exact setIntField_no_oob _ _ _ h
      · exact setUintField_no_oob _ _ _ h
      · exact setBoolField_no_oob _ _ h
      · exact setFloatField_no_oob _ _ _ h
      · split at h <;> simp_all
      · simp_all

theorem unmarshalFieldPtr_no_oob (v : String) (f : RVal) :
    (unmarshalFieldPtr v f).2.1 ≠ some .panicOOB := by
  cases f
  case vPtr z p => exact unmarshalFieldNonPtr_no_oob v (p.getD z)
  all_goals simp [unmarshalFieldPtr]

theorem unmarshalField_no_oob (k : FKind) (v : String) (f : RVal) :
    (unmarshalField k v f).2.1 ≠ some .panicOOB := by
  cases k <;>
    first
      | exact unmarshalFieldPtr_no_oob v f
      | exact unmarshalFieldNonPtr_no_oob v f

theorem coerceSliceElems_no_oob (z : RVal) (vs : List String) :
    (coerceSliceElems z vs).1 ≠ some .panicOOB := by
  induction vs with
  | nil => simp [coerceSliceElems]
  | cons v rest ih =>
    intro h
    unfold coerceSliceElems at h
    split at h
    next e heq =>
      simp only at h
      exact setWithProperType_no_oob z.kind v z (by rw [heq]; simpa using h)
    next x heq =>
      simp only at h
      exact ih h

theorem mapCopy_no_oob : ∀ (data : ValueMap) (entries : List (String × String)),
    (∀ kv ∈ data, kv.2 ≠ []) → (mapCopy entries data).1 ≠ some .panicOOB := by
  intro data
  induction data with
  | nil => intro entries h; simp [mapCopy]
  | cons kv rest ih =>
    intro entries h
    rcases kv with ⟨kk, vs⟩
    cases vs with
    | nil => exact absurd rfl (h (kk, []) (by simp))
    | cons v0 vtl =>
      unfold mapCopy
      exact ih (setEntry entries kk v0) (fun kv hm => h kv (List.mem_cons_of_mem _ hm))

theorem lookup_mem : ∀ (data : ValueMap) (name : String) (vs : List String),
    data.lookup name = some vs → (name, vs) ∈ data := by
  intro data name vs
  induction data with
  | nil => intro h; simp [List.lookup] at h
  | cons kv rest ih =>
    rcases kv with ⟨k, v⟩
    intro h
    rw [List.lookup] at h
    cases hnk : (name == k) with
    | true =>
      rw [hnk] at h
      have hn : name = k := by simpa using hnk
      have hv : v = vs := by simpa using h
      subst hn; subst hv
      exact List.mem_cons_self _ _
    | false =>
      rw [hnk] at h
      exact List.mem_cons_of_mem _ (ih h)

theorem lookupValues_mem (data : ValueMap) (name : String) (vs : List String)
    (h : lookupValues data name = some vs) : ∃ k, (k, vs) ∈ data := by
  unfold lookupValues at h
  split at h
  next v heq =>
    obtain rfl : v = vs := by simpa using h
    exact ⟨name, lookup_mem data name _ heq⟩
  next heq =>
    rcases hf : data.find? (fun kv => strEqualFold kv.1 name) with _ | kv
    · rw [hf] at h; simp at h
    · rw [hf] at h
      obtain rfl : kv.2 = vs := by simpa using h
      exact ⟨kv.1, by simpa using List.mem_of_find?_eq_some hf⟩

theorem bindFieldTagged_no_oob (k : FKind) (w : RVal) (name : String) (data : ValueMap)
    (hd : ∀ kv ∈ data, kv.2 ≠ []) :
    (bindFieldTagged k w name data).1 ≠ some .panicOOB := by
  intro h
  unfold bindFieldTagged at h
  split at h
  · simp at h
  next inputValue hlv =>
    have hvs : inputValue ≠ [] := by
      obtain ⟨kk, hm⟩ := lookupValues_mem data name inputValue hlv
      exact hd (kk, inputValue) hm
    split at h
    · exact absurd rfl hvs
    next v0 vtl =>
      split at h
      next e w' hequ =>
        simp only at h
        exact unmarshalField_no_oob k v0 w (by rw [hequ]; simpa using h)
      next w1 hequ =>
        split at h
        · split at h
          next z elems0 =>
            simp only at h
            split at h
            next e heqc =>
              simp only at h
              exact coerceSliceElems_no_oob z (v0 :: vtl) (by rw [heqc]; simpa using h)
            next heqc => simp at h
          next => simp_all
        · exact setWithProperType_no_oob k v0 w1 h

mutual
theorem bindDataNoOOBAux (dest : RVal) (data : ValueMap) (tag : String)
    (hd : ∀ kv ∈ data, kv.2 ≠ []) : (bindData dest data tag).1 ≠ some .panicOOB := by
  intro h
  unfold bindData at h
  split at h
  · simp at h
  · split at h
    next entries => exact mapCopy_no_oob data entries hd h
    next u t log fields =>
      simp only at h
      exact bindFieldsNoOOBAux fields data tag hd h
    next d hne1 hne2 =>
      split at h <;> simp_all
termination_by sizeOf dest

theorem bindFieldsNoOOBAux (fs : List RField) (data : ValueMap) (tag : String)
    (hd : ∀ kv ∈ data, kv.2 ≠ []) : (bindFields fs data tag).1 ≠ some .panicOOB := by
  intro h
  unfold bindFields at h
  split at h
  · simp at h
  next f rest =>
    simp only at h
    split at h
    next e heq =>
      simp only at h
      exact bindFieldNoOOBAux f data tag hd (by rw [heq]; simpa using h)
    next heq =>
      simp only at h
      exact bindFieldsNoOOBAux rest data tag hd h
termination_by sizeOf fs

theorem bindFieldNoOOBAux : ∀ (f : RField) (data : ValueMap) (tag : String),
    (∀ kv ∈ data, kv.2 ≠ []) → (bindField f data tag).1 ≠ some .panicOOB
  | .mk nm anon tags cs val, data, tag, hd => by
    intro h
    unfold bindField at h
    repeat' (first | (split at h) | (simp only [] at h))
    all_goals
      first
        | (simp_all; done)
        | (exact bindDataNoOOBAux _ data tag hd (by simpa using h))
        | (exact bindFieldTagged_no_oob _ _ _ data hd (by simpa using h))
termination_by f => sizeOf f
end

/-- Claim C10: under the Value Multi-Map invariant (every key of the
value map carries a non-empty list of values), no access to the first
element of a matched value list is out of bounds anywhere in a
`bindData` call: the explicit out-of-bounds branch of the total
embedding (the `panicOOB` error) is unreachable, both in the map-copy
path and in the per-field path. -/
theorem bindData_never_indexes_oob (dest : RVal) (data : ValueMap) (tag : String)
    (hd : ∀ kv ∈ data, kv.2 ≠ []) : (bindData dest data tag).1 ≠ some .panicOOB :=
  bindDataNoOOBAux dest data tag hd

/-- Witness for `bindData_never_indexes_oob` at a map target and a
non-empty value list. -/
theorem bindData_never_indexes_oob_witness :
    (∀ kv ∈ ([("ids", ["1", "2"])] : ValueMap), kv.2 ≠ [])
    ∧ (bindData (.vMapSS []) [("ids", ["1", "2"])] "query").1 ≠ some .panicOOB :=
  ⟨by decide, bindData_never_indexes_oob (.vMapSS []) [("ids", ["1", "2"])] "query" (by decide)⟩

end Httpx
